import Mathlib

/-!
Shallow embedding of the bonding-curve token-sale ledger of `src/src/affiliate.py`
(`TokenSale`, `BondingCurveConfig`) and of the resource-access fee check of the
resource registry.  Python `Decimal` amounts are embedded as exact rationals
(`ℚ`); token counts are integers (`ℤ`); identities (`Pubkey`) are natural
numbers.  Python's `int(x)` conversion on a non-negative `Decimal` truncates
toward zero, embedded by `pyInt`.  The external mint/burn/transfer calls of the
token interface are embedded as effect descriptors, with Boolean oracles
deciding whether each awaited external call succeeds; a failing call raises in
Python after any state mutation already performed, which the embedding mirrors
by returning the mutated state together with the error.
-/

/-- Bonding-curve configuration, from `BondingCurveConfig` in `affiliate.py`. -/
structure BondingCurveConfig where
  base_price : ℚ
  slope : ℚ
  total_supply : ℤ
  deriving DecidableEq, Repr

/-- `BondingCurveConfig.default`: base_price 1e4, slope 1e6, total_supply 1e18. -/
def BondingCurveConfig.default : BondingCurveConfig :=
  { base_price := 10000, slope := 1000000, total_supply := 10 ^ 18 }

/-- Python `int(q)` on a `Decimal`: truncation toward zero. -/
def pyInt (q : ℚ) : ℤ :=
  if 0 ≤ q then ⌊q⌋ else -⌊-q⌋

/-- The mutable fields of a `TokenSale` object plus its construction-time
identities and configuration. -/
structure TokenSale where
  owner : ℕ
  token_account : ℕ
  config : BondingCurveConfig
  total_raised : ℚ
  total_tokens_sold : ℤ
  commission_rate : ℚ
  referrers : List (ℕ × ℕ)
  deriving DecidableEq, Repr

/-- Errors raised by `TokenSale` methods.  `invalidAmount` and
`insufficientTokens` are the validation exceptions `InvalidAmountError` and
`InsufficientTokensError`; the `*Failed` constructors stand for an exception
propagating out of an awaited external token call. -/
inductive SaleError
  | invalidAmount
  | insufficientTokens
  | transferFailed
  | mintFailed
  | burnFailed
  deriving DecidableEq, Repr

/-- Effect descriptors for the external token interface calls. -/
inductive Effect
  | mint (amount : ℤ) (dest : ℕ)
  | burn (amount : ℤ) (source : ℕ)
  | transfer (amount : ℤ) (source : ℕ) (dest : ℕ)
  deriving DecidableEq, Repr

/-- Python dict assignment `d[k] = v`: replace the binding of `k` if present,
else append it. -/
def dictInsert (d : List (ℕ × ℕ)) (k v : ℕ) : List (ℕ × ℕ) :=
  match d with
  | [] => [(k, v)]
  | (k2, v2) :: rest =>
      if k2 = k then (k, v) :: rest else (k2, v2) :: dictInsert rest k v

/-- `TokenSale._calculate_token_price`:
`base_price * (1 + current_supply / slope)`. -/
def calculate_token_price (c : BondingCurveConfig) (current_supply : ℤ) : ℚ :=
  c.base_price * (1 + (current_supply : ℚ) / c.slope)

/-- `TokenSale.buy_tokens(amount, buyer, referrer)`.  `transferOk` and `mintOk`
decide whether the awaited commission transfer and the awaited mint succeed.
Returns the state of the object after the call (mutations before a raised
exception persist) together with either the list of performed effects in
execution order or the error raised. -/
def buy_tokens (s : TokenSale) (amount : ℤ) (buyer : ℕ) (referrer : Option ℕ)
    (transferOk mintOk : Bool) : TokenSale × Except SaleError (List Effect) :=
  if amount ≤ 0 then (s, .error .invalidAmount)
  else
    let token_price := calculate_token_price s.config s.total_tokens_sold
    let tokens_to_buy := pyInt ((amount : ℚ) / token_price)
    if s.config.total_supply < tokens_to_buy + s.total_tokens_sold then
      (s, .error .insufficientTokens)
    else
      let s1 := { s with total_tokens_sold := s.total_tokens_sold + tokens_to_buy,
                         total_raised := s.total_raised + (amount : ℚ) }
      match referrer with
      | none =>
          if mintOk then (s1, .ok [Effect.mint tokens_to_buy buyer])
          else (s1, .error .mintFailed)
      | some r =>
          let s2 := { s1 with referrers := dictInsert s1.referrers buyer r }
          let commission := (amount : ℚ) * s.commission_rate
          if transferOk then
            let s3 := { s2 with total_raised := s2.total_raised - commission }
            if mintOk then
              (s3, .ok [Effect.transfer (pyInt commission) s.token_account r,
                        Effect.mint tokens_to_buy buyer])
            else (s3, .error .mintFailed)
          else (s2, .error .transferFailed)

/-- `TokenSale.sell_tokens(tokens_to_sell, seller)`.  `burnOk` decides whether
the awaited burn succeeds. -/
def sell_tokens (s : TokenSale) (tokens_to_sell : ℤ) (seller : ℕ)
    (burnOk : Bool) : TokenSale × Except SaleError (List Effect) :=
  if tokens_to_sell ≤ 0 then (s, .error .invalidAmount)
  else if s.total_tokens_sold < tokens_to_sell then (s, .error .insufficientTokens)
  else
    let token_price := calculate_token_price s.config (s.total_tokens_sold - tokens_to_sell)
    let amount_to_return := (tokens_to_sell : ℚ) * token_price
    let s1 := { s with total_tokens_sold := s.total_tokens_sold - tokens_to_sell,
                       total_raised := s.total_raised - amount_to_return }
    if burnOk then (s1, .ok [Effect.burn tokens_to_sell seller])
    else (s1, .error .burnFailed)

/-- `TokenSale.withdraw()`: submits a system transfer of `int(total_raised)`
lamports from the token account to the owner; no field of the object is
written. -/
def withdraw (s : TokenSale) : TokenSale × List Effect :=
  (s, [Effect.transfer (pyInt s.total_raised) s.token_account s.owner])

/-- A buy or sell request, for reasoning about sequences of calls on one
`TokenSale` object (external effects taken to succeed). -/
inductive SaleOp
  | opBuy (amount : ℤ) (buyer : ℕ) (referrer : Option ℕ)
  | opSell (amount : ℤ) (seller : ℕ)
  deriving DecidableEq, Repr

/-- The state reached after one buy or sell call (succeeding external calls). -/
def applyOp (s : TokenSale) (op : SaleOp) : TokenSale :=
  match op with
  | .opBuy a b r => (buy_tokens s a b r true true).1
  | .opSell a sl => (sell_tokens s a sl true).1

/-- The state reached after a sequence of buy and sell calls. -/
def applyOps (s : TokenSale) (ops : List SaleOp) : TokenSale :=
  ops.foldl applyOp s

/-- A well-formed bonding-curve configuration: positive base price and slope. -/
def ValidConfig (c : BondingCurveConfig) : Prop :=
  0 < c.base_price ∧ 0 < c.slope

/-- `tokens_sold` stays between `0` and the total supply cap. -/
def TokenBounds (s : TokenSale) : Prop :=
  0 ≤ s.total_tokens_sold ∧ s.total_tokens_sold ≤ s.config.total_supply

/-- The ledger invariant of the spec: non-negative escrow together with the
token-supply bounds. -/
def LedgerInvariant (s : TokenSale) : Prop :=
  0 ≤ s.total_raised ∧ TokenBounds s

/-- A registered resource: owning identity, identifier and exact access fee. -/
structure ResourceRecord where
  owner : ℕ
  resource_id : String
  access_fee : ℤ
  deriving DecidableEq, Repr

/-- Errors of the resource-access registry. -/
inductive AccessError
  | resourceNotFound
  | feeMismatch
  deriving DecidableEq, Repr

/-- Modelled from the spec: the fee-equality check of resource access is
enforced by the on-chain program, which is not part of this source tree
(`src/src/resource_manager.py` only composes and submits the instruction
carrying `amount_lamports`).  Per the spec, `access` looks up the record for
`(owner, resource_id)`, fails with `ResourceNotFound` if absent, fails with
`FeeMismatch` unless `amount == record.access_fee` exactly, and on success
produces a transfer of `amount` from payer to owner, leaving the registry
unchanged. -/
def access_resource (reg : List ResourceRecord) (rid : String) (owner payer : ℕ)
    (amount : ℤ) : List ResourceRecord × Except AccessError Effect :=
  match reg.find? (fun r => r.owner == owner && r.resource_id == rid) with
  | none => (reg, .error .resourceNotFound)
  | some record =>
      if amount = record.access_fee then
        (reg, .ok (Effect.transfer amount payer owner))
      else (reg, .error .feeMismatch)

/-- A fresh sale with the default configuration (the spec's concrete-scenario
configuration) and the default 10% commission rate. -/
def saleState0 : TokenSale :=
  { owner := 0, token_account := 1, config := BondingCurveConfig.default,
    total_raised := 0, total_tokens_sold := 0, commission_rate := 1 / 10,
    referrers := [] }

/-- A sale holding ten sold tokens but an empty escrow. -/
def saleStateNoEscrow : TokenSale :=
  { owner := 0, token_account := 1, config := BondingCurveConfig.default,
    total_raised := 0, total_tokens_sold := 10, commission_rate := 1 / 10,
    referrers := [] }

/-- A sale with 500 lamports of escrowed funds. -/
def saleStateFunds : TokenSale :=
  { owner := 0, token_account := 1, config := BondingCurveConfig.default,
    total_raised := 500, total_tokens_sold := 7, commission_rate := 1 / 10,
    referrers := [] }

/-- A one-record resource registry: owner 5, resource "r1", fee 700. -/
def registry1 : List ResourceRecord :=
  [{ owner := 5, resource_id := "r1", access_fee := 700 }]

lemma pyInt_of_nonneg {q : ℚ} (h : 0 ≤ q) : pyInt q = ⌊q⌋ :=
  if_pos h

lemma pyInt_nonneg {q : ℚ} (h : 0 ≤ q) : 0 ≤ pyInt q := by
  rw [pyInt_of_nonneg h]
  exact Int.floor_nonneg.mpr h

lemma price_pos {c : BondingCurveConfig} {n : ℤ} (hc : ValidConfig c) (hn : 0 ≤ n) :
    0 < calculate_token_price c n := by
  have hdiv : (0 : ℚ) ≤ (n : ℚ) / c.slope :=
    div_nonneg (by exact_mod_cast hn) hc.2.le
  have : (0 : ℚ) < 1 + (n : ℚ) / c.slope := by linarith
  exact mul_pos hc.1 this

lemma dictInsert_lookup (d : List (ℕ × ℕ)) (k v : ℕ) :
    List.lookup k (dictInsert d k v) = some v := by
  induction d with
  | nil => simp [dictInsert, List.lookup]
  | cons hd tl ih =>
      obtain ⟨k2, v2⟩ := hd
      by_cases hk : k2 = k
      · simp [dictInsert, hk, List.lookup]
      · have hbeq : (k == k2) = false := beq_eq_false_iff_ne.mpr (Ne.symm hk)
        simp [dictInsert, if_neg hk, List.lookup, hbeq, ih]

lemma buy_invalid (s : TokenSale) (amount : ℤ) (buyer : ℕ) (r : Option ℕ)
    (tOk mOk : Bool) (hamt : amount ≤ 0) :
    buy_tokens s amount buyer r tOk mOk = (s, .error .invalidAmount) := by
  simp only [buy_tokens, if_pos hamt]

lemma buy_cap_fail (s : TokenSale) (amount : ℤ) (buyer : ℕ) (r : Option ℕ)
    (tOk mOk : Bool) (hamt : 0 < amount)
    (hcap : s.config.total_supply <
      pyInt ((amount : ℚ) / calculate_token_price s.config s.total_tokens_sold)
        + s.total_tokens_sold) :
    buy_tokens s amount buyer r tOk mOk = (s, .error .insufficientTokens) := by
  simp only [buy_tokens, if_neg (not_le.mpr hamt), if_pos hcap]

lemma buy_ok_none (s : TokenSale) (amount : ℤ) (buyer : ℕ)
    (hamt : 0 < amount)
    (hcap : ¬ s.config.total_supply <
      pyInt ((amount : ℚ) / calculate_token_price s.config s.total_tokens_sold)
        + s.total_tokens_sold) :
    buy_tokens s amount buyer none true true =
      ({ s with
          total_tokens_sold := s.total_tokens_sold +
            pyInt ((amount : ℚ) / calculate_token_price s.config s.total_tokens_sold),
          total_raised := s.total_raised + (amount : ℚ) },
       .ok [Effect.mint
          (pyInt ((amount : ℚ) / calculate_token_price s.config s.total_tokens_sold))
          buyer]) := by
  simp only [buy_tokens, if_neg (not_le.mpr hamt), if_neg hcap]
  simp

lemma buy_ok_some (s : TokenSale) (amount : ℤ) (buyer r : ℕ)
    (hamt : 0 < amount)
    (hcap : ¬ s.config.total_supply <
      pyInt ((amount : ℚ) / calculate_token_price s.config s.total_tokens_sold)
        + s.total_tokens_sold) :
    buy_tokens s amount buyer (some r) true true =
      ({ s with
          total_tokens_sold := s.total_tokens_sold +
            pyInt ((amount : ℚ) / calculate_token_price s.config s.total_tokens_sold),
          total_raised := s.total_raised + (amount : ℚ) - (amount : ℚ) * s.commission_rate,
          referrers := dictInsert s.referrers buyer r },
       .ok [Effect.transfer (pyInt ((amount : ℚ) * s.commission_rate)) s.token_account r,
            Effect.mint
              (pyInt ((amount : ℚ) / calculate_token_price s.config s.total_tokens_sold))
              buyer]) := by
  simp only [buy_tokens, if_neg (not_le.mpr hamt), if_neg hcap]
  simp

lemma sell_invalid (s : TokenSale) (t : ℤ) (seller : ℕ) (bOk : Bool)
    (ht : t ≤ 0) :
    sell_tokens s t seller bOk = (s, .error .invalidAmount) := by
  simp only [sell_tokens, if_pos ht]

lemma sell_insufficient (s : TokenSale) (t : ℤ) (seller : ℕ) (bOk : Bool)
    (ht : 0 < t) (hcirc : s.total_tokens_sold < t) :
    sell_tokens s t seller bOk = (s, .error .insufficientTokens) := by
  simp only [sell_tokens, if_neg (not_le.mpr ht), if_pos hcirc]

lemma sell_ok (s : TokenSale) (t : ℤ) (seller : ℕ)
    (ht : 0 < t) (hcirc : t ≤ s.total_tokens_sold) :
    sell_tokens s t seller true =
      ({ s with
          total_tokens_sold := s.total_tokens_sold - t,
          total_raised := s.total_raised -
            (t : ℚ) * calculate_token_price s.config (s.total_tokens_sold - t) },
       .ok [Effect.burn t seller]) := by
  simp only [sell_tokens, if_neg (not_le.mpr ht), if_neg (not_lt.mpr hcirc)]
  simp

lemma buy_fst_config (s : TokenSale) (a : ℤ) (b : ℕ) (r : Option ℕ) (tOk mOk : Bool) :
    (buy_tokens s a b r tOk mOk).1.config = s.config := by
  rcases r with _ | r <;> simp only [buy_tokens] <;> split_ifs <;> rfl

lemma sell_fst_config (s : TokenSale) (t : ℤ) (seller : ℕ) (bOk : Bool) :
    (sell_tokens s t seller bOk).1.config = s.config := by
  simp only [sell_tokens]
  split_ifs <;> rfl

lemma buy_fst_shape (s : TokenSale) (a : ℤ) (b : ℕ) (r : Option ℕ) (tOk mOk : Bool)
    (ha : 0 < a)
    (hcap : ¬ s.config.total_supply <
      pyInt ((a : ℚ) / calculate_token_price s.config s.total_tokens_sold)
        + s.total_tokens_sold) :
    (buy_tokens s a b r tOk mOk).1.total_tokens_sold = s.total_tokens_sold +
        pyInt ((a : ℚ) / calculate_token_price s.config s.total_tokens_sold) ∧
    ((buy_tokens s a b r tOk mOk).1.total_raised = s.total_raised + (a : ℚ) ∨
     (buy_tokens s a b r tOk mOk).1.total_raised =
        s.total_raised + (a : ℚ) - (a : ℚ) * s.commission_rate) := by
  rcases r with _ | r <;>
    simp only [buy_tokens, if_neg (not_le.mpr ha), if_neg hcap] <;>
    rcases tOk <;> rcases mOk <;> simp

lemma sell_fst_shape (s : TokenSale) (t : ℤ) (seller : ℕ) (bOk : Bool)
    (ht : 0 < t) (hcirc : ¬ s.total_tokens_sold < t) :
    (sell_tokens s t seller bOk).1.total_tokens_sold = s.total_tokens_sold - t := by
  simp only [sell_tokens, if_neg (not_le.mpr ht), if_neg hcirc]
  rcases bOk <;> simp

lemma buy_preserves_bounds (s : TokenSale) (a : ℤ) (b : ℕ) (r : Option ℕ)
    (tOk mOk : Bool) (hc : ValidConfig s.config) (hB : TokenBounds s) :
    TokenBounds (buy_tokens s a b r tOk mOk).1 := by
  by_cases ha : a ≤ 0
  · rw [buy_invalid s a b r tOk mOk ha]; exact hB
  push_neg at ha
  by_cases hcap : s.config.total_supply <
      pyInt ((a : ℚ) / calculate_token_price s.config s.total_tokens_sold)
        + s.total_tokens_sold
  · rw [buy_cap_fail s a b r tOk mOk ha hcap]; exact hB
  have ht0 : 0 ≤ pyInt ((a : ℚ) / calculate_token_price s.config s.total_tokens_sold) :=
    pyInt_nonneg (div_nonneg (by exact_mod_cast ha.le) (price_pos hc hB.1).le)
  obtain ⟨hsold, -⟩ := buy_fst_shape s a b r tOk mOk ha hcap
  constructor
  · rw [hsold]; exact add_nonneg hB.1 ht0
  · rw [hsold, buy_fst_config]
    have := not_lt.mp hcap
    omega

lemma sell_preserves_bounds (s : TokenSale) (t : ℤ) (seller : ℕ) (bOk : Bool)
    (hB : TokenBounds s) : TokenBounds (sell_tokens s t seller bOk).1 := by
  by_cases ht : t ≤ 0
  · rw [sell_invalid s t seller bOk ht]; exact hB
  push_neg at ht
  by_cases hcirc : s.total_tokens_sold < t
  · rw [sell_insufficient s t seller bOk ht hcirc]; exact hB
  have hsold := sell_fst_shape s t seller bOk ht hcirc
  constructor
  · rw [hsold]; omega
  · rw [hsold, sell_fst_config]
    have h1 := hB.2
    omega

lemma buy_preserves_invariant (s : TokenSale) (a : ℤ) (b : ℕ) (r : Option ℕ)
    (tOk mOk : Bool) (hc : ValidConfig s.config)
    (hr1 : s.commission_rate ≤ 1) (hI : LedgerInvariant s) :
    LedgerInvariant (buy_tokens s a b r tOk mOk).1 := by
  refine ⟨?_, buy_preserves_bounds s a b r tOk mOk hc hI.2⟩
  by_cases ha : a ≤ 0
  · rw [buy_invalid s a b r tOk mOk ha]; exact hI.1
  push_neg at ha
  by_cases hcap : s.config.total_supply <
      pyInt ((a : ℚ) / calculate_token_price s.config s.total_tokens_sold)
        + s.total_tokens_sold
  · rw [buy_cap_fail s a b r tOk mOk ha hcap]; exact hI.1
  obtain ⟨-, hraised⟩ := buy_fst_shape s a b r tOk mOk ha hcap
  have haq : (0 : ℚ) < (a : ℚ) := by exact_mod_cast ha
  have hprinc : (0 : ℚ) ≤ (a : ℚ) - (a : ℚ) * s.commission_rate := by
    have := mul_nonneg haq.le (sub_nonneg.mpr hr1)
    nlinarith
  rcases hraised with h | h <;> rw [h] <;> linarith [hI.1]

lemma applyOp_config (s : TokenSale) (op : SaleOp) :
    (applyOp s op).config = s.config := by
  rcases op with ⟨a, b, r⟩ | ⟨a, sl⟩
  · exact buy_fst_config s a b r true true
  · exact sell_fst_config s a sl true

lemma applyOp_bounds (s : TokenSale) (op : SaleOp) (hc : ValidConfig s.config)
    (hB : TokenBounds s) : TokenBounds (applyOp s op) := by
  rcases op with ⟨a, b, r⟩ | ⟨a, sl⟩
  · exact buy_preserves_bounds s a b r true true hc hB
  · exact sell_preserves_bounds s a sl true hB

lemma applyOps_bounds (ops : List SaleOp) :
    ∀ s : TokenSale, ValidConfig s.config → TokenBounds s →
      TokenBounds (applyOps s ops) := by
  induction ops with
  | nil => intro s _ hB; simpa [applyOps] using hB
  | cons op rest ih =>
      intro s hc hB
      have hc1 : ValidConfig (applyOp s op).config := by
        rw [applyOp_config]; exact hc
      have hB1 := applyOp_bounds s op hc hB
      simpa [applyOps, List.foldl] using ih (applyOp s op) hc1 hB1

/-- C1: for a valid configuration and a positive principal, `buy_tokens`
prices at the pre-buy supply via `base_price * (1 + tokens_sold / slope)`,
computes the minted amount as `⌊principal / price⌋`, fails with
`insufficientTokens` exactly when `tokens_sold` plus that amount would exceed
the supply cap, and otherwise adds the minted amount to `tokens_sold` and the
full principal to the escrow. -/
theorem buy_tokens_spec (s : TokenSale) (amount : ℤ) (buyer : ℕ)
    (hamt : 0 < amount) (hb : 0 < s.config.base_price) (hs : 0 < s.config.slope)
    (hn : 0 ≤ s.total_tokens_sold) :
    (s.config.total_supply <
        ⌊(amount : ℚ) / (s.config.base_price *
            (1 + (s.total_tokens_sold : ℚ) / s.config.slope))⌋ + s.total_tokens_sold →
      buy_tokens s amount buyer none true true = (s, .error .insufficientTokens)) ∧
    (¬ s.config.total_supply <
        ⌊(amount : ℚ) / (s.config.base_price *
            (1 + (s.total_tokens_sold : ℚ) / s.config.slope))⌋ + s.total_tokens_sold →
      buy_tokens s amount buyer none true true =
        ({ s with
            total_tokens_sold := s.total_tokens_sold +
              ⌊(amount : ℚ) / (s.config.base_price *
                  (1 + (s.total_tokens_sold : ℚ) / s.config.slope))⌋,
            total_raised := s.total_raised + (amount : ℚ) },
         .ok [Effect.mint
            ⌊(amount : ℚ) / (s.config.base_price *
                (1 + (s.total_tokens_sold : ℚ) / s.config.slope))⌋ buyer])) := by
  have hp : 0 < calculate_token_price s.config s.total_tokens_sold :=
    price_pos ⟨hb, hs⟩ hn
  have hq : (0 : ℚ) ≤ (amount : ℚ) / calculate_token_price s.config s.total_tokens_sold :=
    div_nonneg (by exact_mod_cast hamt.le) hp.le
  have hfl : pyInt ((amount : ℚ) / calculate_token_price s.config s.total_tokens_sold) =
      ⌊(amount : ℚ) / (s.config.base_price *
          (1 + (s.total_tokens_sold : ℚ) / s.config.slope))⌋ :=
    pyInt_of_nonneg hq
  constructor
  · intro hcap
    exact buy_cap_fail s amount buyer none true true hamt (by rw [hfl]; exact hcap)
  · intro hcap
    rw [buy_ok_none s amount buyer hamt (by rw [hfl]; exact hcap), hfl]

/-- C1 witness: the spec's concrete scenario: with base_price 10000, slope
1e6, tokens_sold 0, a buy of principal 100000 prices at 10000, mints 10
tokens, and leaves tokens_sold 10, escrow 100000. -/
theorem buy_tokens_spec_witness :
    buy_tokens saleState0 100000 2 none true true =
      ({ saleState0 with total_tokens_sold := 10, total_raised := 100000 },
       .ok [Effect.mint 10 2]) := by
  have h := (buy_tokens_spec saleState0 100000 2 (by norm_num)
      (by norm_num [saleState0, BondingCurveConfig.default])
      (by norm_num [saleState0, BondingCurveConfig.default])
      (by norm_num [saleState0])).2
      (by norm_num [saleState0, BondingCurveConfig.default])
  rw [h]
  norm_num [saleState0, BondingCurveConfig.default]

/-- C2: `sell_tokens` rejects non-positive amounts with `invalidAmount`,
rejects amounts above circulation with `insufficientTokens`, and otherwise
prices at the post-sale supply — refund `t * (base_price *
(1 + (tokens_sold - t) / slope))` — removing `t` from `tokens_sold` and the
refund from the escrow. -/
theorem sell_tokens_spec (s : TokenSale) (t : ℤ) (seller : ℕ)
    (_hs : 0 < s.config.slope) :
    (t ≤ 0 → sell_tokens s t seller true = (s, .error .invalidAmount)) ∧
    (0 < t → s.total_tokens_sold < t →
      sell_tokens s t seller true = (s, .error .insufficientTokens)) ∧
    (0 < t → t ≤ s.total_tokens_sold →
      sell_tokens s t seller true =
        ({ s with
            total_tokens_sold := s.total_tokens_sold - t,
            total_raised := s.total_raised -
              (t : ℚ) * (s.config.base_price *
                (1 + ((s.total_tokens_sold - t : ℤ) : ℚ) / s.config.slope)) },
         .ok [Effect.burn t seller])) := by
  refine ⟨fun ht => sell_invalid s t seller true ht,
         fun ht hcirc => sell_insufficient s t seller true ht hcirc,
         fun ht hcirc => ?_⟩
  rw [sell_ok s t seller ht hcirc]
  rfl

/-- C2 witness: on a sale with ten tokens in circulation, selling 0 is
`invalidAmount`, selling 11 is `insufficientTokens`, and selling 4 refunds
`4 * 10000.06` priced at the post-sale supply 6. -/
theorem sell_tokens_spec_witness :
    sell_tokens saleStateNoEscrow 0 3 true =
      (saleStateNoEscrow, .error .invalidAmount) ∧
    sell_tokens saleStateNoEscrow 11 3 true =
      (saleStateNoEscrow, .error .insufficientTokens) ∧
    sell_tokens saleStateNoEscrow 4 3 true =
      ({ saleStateNoEscrow with
          total_tokens_sold := 6, total_raised := -(1000006 / 25 : ℚ) },
       .ok [Effect.burn 4 3]) := by
  have hslope : (0 : ℚ) < saleStateNoEscrow.config.slope := by
    norm_num [saleStateNoEscrow, BondingCurveConfig.default]
  refine ⟨(sell_tokens_spec saleStateNoEscrow 0 3 hslope).1 le_rfl,
         (sell_tokens_spec saleStateNoEscrow 11 3 hslope).2.1 (by norm_num)
           (by norm_num [saleStateNoEscrow]), ?_⟩
  have h := (sell_tokens_spec saleStateNoEscrow 4 3 hslope).2.2 (by norm_num)
      (by norm_num [saleStateNoEscrow])
  rw [h]
  norm_num [saleStateNoEscrow, BondingCurveConfig.default]

/-- C10: a positive principal strictly below the current token price passes
every check in `buy_tokens`: it mints zero tokens, leaves `tokens_sold`
unchanged, and still credits the full principal to the escrow — the buyer
pays and receives nothing. -/
theorem buy_below_price_mints_zero (s : TokenSale) (amount : ℤ) (buyer : ℕ)
    (hamt : 0 < amount) (hb : 0 < s.config.base_price) (hs : 0 < s.config.slope)
    (hn : 0 ≤ s.total_tokens_sold) (hcap : s.total_tokens_sold ≤ s.config.total_supply)
    (hlt : (amount : ℚ) < s.config.base_price *
      (1 + (s.total_tokens_sold : ℚ) / s.config.slope)) :
    buy_tokens s amount buyer none true true =
      ({ s with total_raised := s.total_raised + (amount : ℚ) },
       .ok [Effect.mint 0 buyer]) := by
  have hp : 0 < calculate_token_price s.config s.total_tokens_sold :=
    price_pos ⟨hb, hs⟩ hn
  have hq0 : (0 : ℚ) ≤ (amount : ℚ) / calculate_token_price s.config s.total_tokens_sold :=
    div_nonneg (by exact_mod_cast hamt.le) hp.le
  have hq1 : (amount : ℚ) / calculate_token_price s.config s.total_tokens_sold < 1 :=
    (div_lt_one hp).mpr hlt
  have hz : pyInt ((amount : ℚ) / calculate_token_price s.config s.total_tokens_sold) = 0 := by
    rw [pyInt_of_nonneg hq0]
    exact Int.floor_eq_zero_iff.mpr ⟨hq0, hq1⟩
  have hcap2 : ¬ s.config.total_supply <
      pyInt ((amount : ℚ) / calculate_token_price s.config s.total_tokens_sold)
        + s.total_tokens_sold := by
    rw [hz]; omega
  rw [buy_ok_none s amount buyer hamt hcap2, hz]
  simp

/-- C10 witness: buying with principal 9999 at price 10000 succeeds, mints
nothing, and credits all 9999 to the escrow. -/
theorem buy_below_price_mints_zero_witness :
    buy_tokens saleState0 9999 2 none true true =
      ({ saleState0 with total_raised := 9999 }, .ok [Effect.mint 0 2]) := by
  have h := buy_below_price_mints_zero saleState0 9999 2 (by norm_num)
      (by norm_num [saleState0, BondingCurveConfig.default])
      (by norm_num [saleState0, BondingCurveConfig.default])
      (by norm_num [saleState0])
      (by norm_num [saleState0, BondingCurveConfig.default])
      (by norm_num [saleState0, BondingCurveConfig.default])
  rw [h]
  norm_num [saleState0]

/-- C3 counterexample: a state satisfying the full ledger invariant on which
a single sell call drives the escrow balance to -100000: the invariant is not
preserved by every operation. -/
theorem ledger_invariant_violated_by_sell :
    LedgerInvariant saleStateNoEscrow ∧
    (applyOps saleStateNoEscrow [SaleOp.opSell 10 2]).total_raised = -100000 := by
  constructor
  · refine ⟨le_rfl, by norm_num [TokenBounds, saleStateNoEscrow, BondingCurveConfig.default]⟩
  · norm_num [applyOps, applyOp, List.foldl, sell_tokens, calculate_token_price,
      saleStateNoEscrow, BondingCurveConfig.default]

/-- C3 amended: `buy_tokens` and `withdraw` preserve the full ledger
invariant (non-negative escrow and token-supply bounds); `sell_tokens`
preserves the token-supply bounds, though not escrow non-negativity (the code
has no escrow check); consequently every sequence of buy and sell calls
preserves the token-supply bounds. -/
theorem ledger_ops_bounds_amended (s : TokenSale)
    (hb : 0 < s.config.base_price) (hs : 0 < s.config.slope)
    (hr1 : s.commission_rate ≤ 1) :
    (∀ a b r tOk mOk, LedgerInvariant s →
      LedgerInvariant (buy_tokens s a b r tOk mOk).1) ∧
    (∀ a sl bOk, TokenBounds s → TokenBounds (sell_tokens s a sl bOk).1) ∧
    (withdraw s).1 = s ∧
    (∀ ops : List SaleOp, TokenBounds s → TokenBounds (applyOps s ops)) :=
  ⟨fun a b r tOk mOk hI => buy_preserves_invariant s a b r tOk mOk ⟨hb, hs⟩ hr1 hI,
   fun a sl bOk hB => sell_preserves_bounds s a sl bOk hB,
   rfl,
   fun ops hB => applyOps_bounds ops s ⟨hb, hs⟩ hB⟩

/-- C3 amended witness: a buy minting 10 tokens followed by a sell of 5 keeps
`tokens_sold` within the supply bounds. -/
theorem ledger_ops_bounds_amended_witness :
    TokenBounds (applyOps saleState0 [SaleOp.opBuy 100000 2 none, SaleOp.opSell 5 3]) := by
  exact (ledger_ops_bounds_amended saleState0
      (by norm_num [saleState0, BondingCurveConfig.default])
      (by norm_num [saleState0, BondingCurveConfig.default])
      (by norm_num [saleState0])).2.2.2
    [SaleOp.opBuy 100000 2 none, SaleOp.opSell 5 3]
    (by exact ⟨le_rfl, by norm_num [saleState0, BondingCurveConfig.default]⟩)

/-- C4: falsified atomicity: on a buy whose awaited external mint fails, the
validation has already passed and the `tokens_sold`/`total_raised` deltas are
already applied; the ledger is not restored to its pre-operation value (state
is mutated before the external effects run, with no rollback). -/
theorem buy_mint_failure_leaves_mutated_state :
    (buy_tokens saleState0 100000 2 none true false).2 =
      .error .mintFailed ∧
    (buy_tokens saleState0 100000 2 none true false).1.total_tokens_sold = 10 ∧
    (buy_tokens saleState0 100000 2 none true false).1.total_raised = 100000 ∧
    saleState0.total_tokens_sold = 0 ∧ saleState0.total_raised = 0 := by
  norm_num [buy_tokens, calculate_token_price, pyInt, saleState0,
    BondingCurveConfig.default]

/-- C5: falsified: `sell_tokens` has no escrow check: with zero escrow and a
computed refund of 100000, the sale succeeds (no `InsufficientEscrow` error
exists in the code) and leaves the escrow balance at -100000. -/
theorem sell_no_escrow_check :
    saleStateNoEscrow.total_raised = 0 ∧
    (sell_tokens saleStateNoEscrow 10 2 true).2 = .ok [Effect.burn 10 2] ∧
    (sell_tokens saleStateNoEscrow 10 2 true).1.total_raised = -100000 := by
  norm_num [sell_tokens, calculate_token_price, saleStateNoEscrow,
    BondingCurveConfig.default]

/-- C7: falsified: `withdraw` takes no requester (it always signs as the
owner, so no `Unauthorized` rejection exists) and produces a transfer of the
whole floored escrow balance while leaving the state — in particular
`total_raised` — unchanged instead of decreasing it. -/
theorem withdraw_keeps_escrow :
    withdraw saleStateFunds = (saleStateFunds, [Effect.transfer 500 1 0]) ∧
    (withdraw saleStateFunds).1.total_raised = 500 := by
  norm_num [withdraw, pyInt, saleStateFunds]

/-- C6: a successful buy with a referrer computes the commission as
`principal * commission_rate`, credits the escrow with
`principal - commission`, emits a commission transfer addressed to the
referrer, and records buyer → referrer in the mapping with the last write
winning. -/
theorem buy_tokens_commission_spec (s : TokenSale) (amount : ℤ) (buyer r : ℕ)
    (hamt : 0 < amount) (hb : 0 < s.config.base_price) (hs : 0 < s.config.slope)
    (hn : 0 ≤ s.total_tokens_sold)
    (hcap : ¬ s.config.total_supply <
      ⌊(amount : ℚ) / (s.config.base_price *
          (1 + (s.total_tokens_sold : ℚ) / s.config.slope))⌋ + s.total_tokens_sold) :
    buy_tokens s amount buyer (some r) true true =
      ({ s with
          total_tokens_sold := s.total_tokens_sold +
            ⌊(amount : ℚ) / (s.config.base_price *
                (1 + (s.total_tokens_sold : ℚ) / s.config.slope))⌋,
          total_raised := s.total_raised + (amount : ℚ)
            - (amount : ℚ) * s.commission_rate,
          referrers := dictInsert s.referrers buyer r },
       .ok [Effect.transfer (pyInt ((amount : ℚ) * s.commission_rate))
              s.token_account r,
            Effect.mint
              ⌊(amount : ℚ) / (s.config.base_price *
                  (1 + (s.total_tokens_sold : ℚ) / s.config.slope))⌋ buyer]) ∧
    List.lookup buyer (dictInsert s.referrers buyer r) = some r := by
  have hp : 0 < calculate_token_price s.config s.total_tokens_sold :=
    price_pos ⟨hb, hs⟩ hn
  have hq : (0 : ℚ) ≤ (amount : ℚ) / calculate_token_price s.config s.total_tokens_sold :=
    div_nonneg (by exact_mod_cast hamt.le) hp.le
  have hfl : pyInt ((amount : ℚ) / calculate_token_price s.config s.total_tokens_sold) =
      ⌊(amount : ℚ) / (s.config.base_price *
          (1 + (s.total_tokens_sold : ℚ) / s.config.slope))⌋ :=
    pyInt_of_nonneg hq
  exact ⟨by rw [buy_ok_some s amount buyer r hamt (by rw [hfl]; exact hcap), hfl],
         dictInsert_lookup s.referrers buyer r⟩

/-- C6 witness: the spec's concrete commission scenario: a buy of principal
1000 with `commission_rate` 0.1 sends 100 to the referrer and credits the
escrow with 900; the referrer mapping records the buyer's referrer. -/
theorem buy_tokens_commission_witness :
    buy_tokens saleState0 1000 2 (some 3) true true =
      ({ saleState0 with total_raised := 900, referrers := [(2, 3)] },
       .ok [Effect.transfer 100 1 3, Effect.mint 0 2]) ∧
    List.lookup 2 (dictInsert saleState0.referrers 2 3) = some 3 := by
  have h := buy_tokens_commission_spec saleState0 1000 2 3 (by norm_num)
      (by norm_num [saleState0, BondingCurveConfig.default])
      (by norm_num [saleState0, BondingCurveConfig.default])
      (by norm_num [saleState0])
      (by norm_num [saleState0, BondingCurveConfig.default])
  refine ⟨?_, h.2⟩
  rw [h.1]
  norm_num [saleState0, BondingCurveConfig.default, dictInsert, pyInt]

/-- C8: buying with a principal and then selling exactly the tokens that the
buy minted returns `tokens_sold` to its pre-buy value (when the buy mints
zero tokens the sell rejects the zero amount and the count is already at the
pre-buy value). -/
theorem buy_sell_round_trip (s : TokenSale) (amount : ℤ) (buyer seller : ℕ)
    (hamt : 0 < amount) (hb : 0 < s.config.base_price) (hs : 0 < s.config.slope)
    (hn : 0 ≤ s.total_tokens_sold)
    (hcap : ¬ s.config.total_supply <
      ⌊(amount : ℚ) / (s.config.base_price *
          (1 + (s.total_tokens_sold : ℚ) / s.config.slope))⌋ + s.total_tokens_sold) :
    ((sell_tokens (buy_tokens s amount buyer none true true).1
        ⌊(amount : ℚ) / (s.config.base_price *
            (1 + (s.total_tokens_sold : ℚ) / s.config.slope))⌋
        seller true).1).total_tokens_sold = s.total_tokens_sold := by
  have hp : 0 < calculate_token_price s.config s.total_tokens_sold :=
    price_pos ⟨hb, hs⟩ hn
  have hq : (0 : ℚ) ≤ (amount : ℚ) / calculate_token_price s.config s.total_tokens_sold :=
    div_nonneg (by exact_mod_cast hamt.le) hp.le
  have hfl : pyInt ((amount : ℚ) / calculate_token_price s.config s.total_tokens_sold) =
      ⌊(amount : ℚ) / (s.config.base_price *
          (1 + (s.total_tokens_sold : ℚ) / s.config.slope))⌋ :=
    pyInt_of_nonneg hq
  have hcap2 : ¬ s.config.total_supply <
      pyInt ((amount : ℚ) / calculate_token_price s.config s.total_tokens_sold)
        + s.total_tokens_sold := by
    rw [hfl]; exact hcap
  have hsold1 : (buy_tokens s amount buyer none true true).1.total_tokens_sold =
      s.total_tokens_sold +
        pyInt ((amount : ℚ) / calculate_token_price s.config s.total_tokens_sold) :=
    (buy_fst_shape s amount buyer none true true hamt hcap2).1
  rw [← hfl]
  rcases (pyInt_nonneg hq).eq_or_lt with h0 | hpos
  · rw [sell_invalid _ _ _ _ (le_of_eq h0.symm)]
    simp only [hsold1, ← h0, add_zero]
  · have hcirc : ¬ (buy_tokens s amount buyer none true true).1.total_tokens_sold <
        pyInt ((amount : ℚ) / calculate_token_price s.config s.total_tokens_sold) := by
      rw [hsold1]; omega
    rw [sell_fst_shape _ _ seller true hpos hcirc, hsold1]
    omega

/-- C8 witness: a buy of principal 100000 on the fresh default sale mints 10
tokens; selling those 10 returns `tokens_sold` to 0. -/
theorem buy_sell_round_trip_witness :
    ((sell_tokens (buy_tokens saleState0 100000 2 none true true).1
        10 3 true).1).total_tokens_sold = 0 := by
  have h := buy_sell_round_trip saleState0 100000 2 3 (by norm_num)
      (by norm_num [saleState0, BondingCurveConfig.default])
      (by norm_num [saleState0, BondingCurveConfig.default])
      (by norm_num [saleState0])
      (by norm_num [saleState0, BondingCurveConfig.default])
  norm_num [saleState0, BondingCurveConfig.default] at h
  exact h

/-- C9: spec-modelled resource access: with a record registered for the
looked-up owner and resource id, access succeeds exactly when the paid amount
equals the record's `access_fee`; paying `fee - 1` or `fee + 1` fails with
`feeMismatch`; the registry is never changed. -/
theorem access_resource_fee_exact (reg : List ResourceRecord) (rid : String)
    (owner payer : ℕ) (record : ResourceRecord)
    (hfind : reg.find? (fun r => r.owner == owner && r.resource_id == rid) =
      some record) :
    (∀ amount, (access_resource reg rid owner payer amount).1 = reg) ∧
    (∀ amount, (access_resource reg rid owner payer amount).2 =
        .ok (Effect.transfer amount payer owner) ↔ amount = record.access_fee) ∧
    (access_resource reg rid owner payer (record.access_fee - 1)).2 =
      .error .feeMismatch ∧
    (access_resource reg rid owner payer (record.access_fee + 1)).2 =
      .error .feeMismatch := by
  refine ⟨fun amount => ?_, fun amount => ?_, ?_, ?_⟩
  · simp only [access_resource, hfind]
    split_ifs <;> rfl
  · simp only [access_resource, hfind]
    split_ifs with h
    · simp [h]
    · simp [h]
  · simp only [access_resource, hfind]
    rw [if_neg (by omega)]
  · simp only [access_resource, hfind]
    rw [if_neg (by omega)]

/-- C9 witness: against a registry holding owner 5, resource "r1", fee 700:
paying 700 succeeds with a transfer to the owner, paying 699 or 701 fails
with `feeMismatch`. -/
theorem access_resource_fee_exact_witness :
    (access_resource registry1 "r1" 5 9 700).2 =
      .ok (Effect.transfer 700 9 5) ∧
    (access_resource registry1 "r1" 5 9 699).2 = .error .feeMismatch ∧
    (access_resource registry1 "r1" 5 9 701).2 = .error .feeMismatch := by
  have hfind : registry1.find?
      (fun r => r.owner == 5 && r.resource_id == "r1") =
        some { owner := 5, resource_id := "r1", access_fee := 700 } := rfl
  have h := access_resource_fee_exact registry1 "r1" 5 9
      { owner := 5, resource_id := "r1", access_fee := 700 } hfind
  refine ⟨(h.2.1 700).mpr rfl, ?_, ?_⟩
  · have h1 := h.2.2.1
    norm_num at h1
    exact h1
  · have h2 := h.2.2.2
    norm_num at h2
    exact h2
